import Mathlib

/-!
Verification of the e2e-messaging multicast chat client (`src/client.py`).

The development shallowly embeds the protocol engine of `client.py`:
the wire envelope and its codec, the `known_peers` directory, one
iteration of the receive loop `listen_for_messages`, and one iteration
of the main send loop.  The Crypto Provider (`crypto_utils.py`) and the
configuration constants (`config.py`) are external collaborators not
present under `src/`; they are modelled from the spec's contracts as an
oracle structure and a placeholder constant.
-/

namespace E2E

/-- Bytes on the wire, modelled as lists of naturals. -/
abbrev Bytes := List Nat

/-- A public key: opaque verification-key bytes stored in `known_peers`. -/
abbrev Key := Bytes

/-- Modelled from the spec: `config.NULL_BYTE`, the well-known placeholder
carried by unused envelope fields (an empty byte value per the data-model
invariant); `config.py` is not under `src/`. -/
def nullByte : Bytes := []

/-- The wire envelope of `client.py`: the 5-tuple
`(message_type, encrypted_message, nonce, signature, sig_nonce)` that is
unpacked at line 56 and packed at lines 123, 160 and 175. -/
structure Envelope where
  messageType : String
  ciphertext : Bytes
  nonce : Bytes
  signature : Bytes
  sigNonce : Bytes
  deriving DecidableEq

/-- Modelled from the spec: the Crypto Provider contract (`crypto_utils.py`
is not under `src/`).  `decryptMsg` embeds `crypto_utils.unpack_data(ct, nonce)`
returning text, `decryptKey` embeds `unpack_data(ct, nonce, isKey=True)`
returning key bytes, `verify` embeds `crypto_utils.verify_signature(key, sig,
message_bytes)` which never raises and returns a boolean, and `utf8Decode`
embeds `bytes.decode(chr_utf8)` used by the LEAVE branch.  A `none` result
models the raised `CryptoError` (resp. `UnicodeDecodeError`). -/
structure Crypto where
  decryptMsg : Bytes → Bytes → Option String
  decryptKey : Bytes → Bytes → Option Key
  verify : Key → Bytes → String → Bool
  utf8Decode : Bytes → Option String

/-- The peer directory `known_peers` (line 44 of `client.py`): a Python dict
mapping usernames to public keys, modelled as an association list whose keys
are unique on every reachable state. -/
abbrev Peers := List (String × Key)

/-- Dict lookup and membership: `known_peers[u]` and `u in known_peers`. -/
def lookup (u : String) : Peers → Option Key
  | [] => none
  | (v, k) :: ps => if v = u then some k else lookup u ps

/-- Dict deletion `del known_peers[u]`; with unique keys, removing every
binding of `u` coincides with the dict semantics. -/
def erase (u : String) (ps : Peers) : Peers :=
  ps.filter (fun p => p.1 ≠ u)

/-- Decides whether the character list `p` is an initial segment of `s`;
the building block for the embedding of Python string operations. -/
def listIsPre : List Char → List Char → Bool
  | [], _ => true
  | _ :: _, [] => false
  | a :: as, b :: bs => if a = b then listIsPre as bs else false

/-- Embedding of Python `s.startswith(p)` on character lists. -/
def strStartsWith (s p : String) : Bool := listIsPre p.data s.data

/-- The character list before the first occurrence of `sep`, or the whole
list when `sep` never occurs. -/
def splitHead (sep : List Char) : List Char → List Char
  | [] => []
  | c :: t => if listIsPre sep (c :: t) then [] else c :: splitHead sep t

/-- Embedding of the sender extraction at line 65 of `client.py`:
the Python expression `raw_received_message.split(chr_colon_space)[0]`,
i.e. the text before the first occurrence of colon-space. -/
def senderOf (s : String) : String := String.mk (splitHead [':', ' '] s.data)

/-- Embedding of Python `str.lower()` at line 149 (ASCII case folding,
which agrees with Python on all ASCII input). -/
def pyLower (s : String) : String := String.mk (s.data.map Char.toLower)

/-- A string as its character codes, used by the envelope codec to frame
the message-type tag. -/
def strBytes (s : String) : Bytes := s.data.map Char.toNat

/-- Character codes back to a string; left inverse of `strBytes`. -/
def bytesStr (l : Bytes) : String := String.mk (l.map Char.ofNat)

/-- A length-prefixed field of the wire frame. -/
def encField (l : Bytes) : Bytes := l.length :: l

/-- Parses one length-prefixed field, returning it and the rest of the
input; `none` on truncated input. -/
def decField : Bytes → Option (Bytes × Bytes)
  | [] => none
  | n :: rest => if n ≤ rest.length then some (rest.take n, rest.drop n) else none

/-- Modelled from the spec: the Envelope Codec (section 4.1).  In the source
the codec is `pickle.dumps` of the 5-tuple (lines 123, 160, 175); the pickle
implementation is library code not under `src/`, so the codec is modelled as
an injective length-prefixed framing that satisfies the stated contract. -/
def encode (e : Envelope) : Bytes :=
  encField (strBytes e.messageType) ++ encField e.ciphertext ++ encField e.nonce
    ++ encField e.signature ++ encField e.sigNonce

/-- Modelled from the spec: structural decoding (`pickle.loads` plus the
arity-5 tuple unpacking at line 56).  A `none` result models `CodecError`:
truncated, wrong arity, or type-confused payload. -/
def decode (b : Bytes) : Option Envelope :=
  match decField b with
  | none => none
  | some (t, r1) =>
    match decField r1 with
    | none => none
    | some (c, r2) =>
      match decField r2 with
      | none => none
      | some (n, r3) =>
        match decField r3 with
        | none => none
        | some (s, r4) =>
          match decField r4 with
          | none => none
          | some (sn, r5) =>
            if r5 = [] then some ⟨bytesStr t, c, n, s, sn⟩ else none

/-- Whether the `while True` receive loop falls through to its next
iteration (`cont`) or executes `break` and terminates (`brk`). -/
inductive LoopCtl where
  | cont
  | brk
  deriving DecidableEq

/-- The observable result of one receive-loop iteration: the updated
`known_peers`, the lines printed, and the loop control. -/
structure StepOut where
  peers : Peers
  output : List String
  ctl : LoopCtl
  deriving DecidableEq

/-- The line printed by the generic handler at line 111 of `client.py`
(the interpolated exception text is not modelled). -/
def recvErrLine : String := "Error receiving message"

/-- The CHAT branch of `listen_for_messages` (lines 60-77): decrypt, ignore
own messages by the startswith check, skip unknown senders, verify the
signature against the stored key, and print on success.  A decryption
failure is the raised `CryptoError`, caught by the generic handler at
line 110 which prints and breaks. -/
def handleChat (c : Crypto) (localUser : String) (ps : Peers) (env : Envelope) : StepOut :=
  match c.decryptMsg env.ciphertext env.nonce with
  | none => ⟨ps, [recvErrLine], .brk⟩
  | some raw =>
    if strStartsWith raw (localUser ++ ": ") then ⟨ps, [], .cont⟩
    else
      match lookup (senderOf raw) ps with
      | none => ⟨ps, [], .cont⟩
      | some k =>
        if c.verify k env.signature raw then ⟨ps, [raw], .cont⟩ else ⟨ps, [], .cont⟩

/-- The JOIN branch of `listen_for_messages` (lines 80-88): decrypt the
announced username and (from the signature field with its own nonce) the
announced public key; insert and greet only when the username is not yet
known.  Decryption failures reach the generic handler: print and break. -/
def handleJoin (c : Crypto) (ps : Peers) (env : Envelope) : StepOut :=
  match c.decryptMsg env.ciphertext env.nonce with
  | none => ⟨ps, [recvErrLine], .brk⟩
  | some newU =>
    match c.decryptKey env.signature env.sigNonce with
    | none => ⟨ps, [recvErrLine], .brk⟩
    | some k =>
      match lookup newU ps with
      | some _ => ⟨ps, [], .cont⟩
      | none => ⟨ps ++ [(newU, k)], ["Welcome " ++ newU ++ " to the chat!"], .cont⟩

/-- The LEAVE branch of `listen_for_messages` (lines 91-101): utf-8 decode
the plaintext username, print the departure notice unconditionally, then
delete the entry when present.  A decode failure reaches the generic
handler: print and break. -/
def handleLeave (c : Crypto) (ps : Peers) (env : Envelope) : StepOut :=
  match c.utf8Decode env.ciphertext with
  | none => ⟨ps, [recvErrLine], .brk⟩
  | some u =>
    match lookup u ps with
    | some _ => ⟨erase u ps, [u ++ " has left the chat."], .cont⟩
    | none => ⟨ps, [u ++ " has left the chat."], .cont⟩

/-- Dispatch on the unencrypted message type (lines 58-105); an unknown
type prints a notice and continues. -/
def handleEnvelope (c : Crypto) (localUser : String) (ps : Peers) (env : Envelope) : StepOut :=
  if env.messageType = "CHAT" then handleChat c localUser ps env
  else if env.messageType = "JOIN" then handleJoin c ps env
  else if env.messageType = "LEAVE" then handleLeave c ps env
  else ⟨ps, ["Unknown message type: " ++ env.messageType], .cont⟩

/-- Processing one received payload: structural decoding followed by
dispatch.  A `CodecError` is an exception that is not an `OSError`, so it is
caught by the generic handler at line 110, which prints and breaks. -/
def processDatagram (c : Crypto) (localUser : String) (ps : Peers) (d : Bytes) : StepOut :=
  match decode d with
  | none => ⟨ps, [recvErrLine], .brk⟩
  | some env => handleEnvelope c localUser ps env

/-- What `client_socket.recvfrom` does on one iteration: deliver a datagram,
or raise `OSError` (with `errno.EBADF` or not). -/
inductive RecvEvent where
  | datagram (d : Bytes)
  | osError (ebadf : Bool)
  deriving DecidableEq

/-- One full iteration of the `while True` loop of `listen_for_messages`
(lines 49-112).  An `OSError` is caught at line 107: when `errno == EBADF`
the handler body is `pass`, and otherwise the `if` simply does not fire; in
both cases the iteration ends and the loop continues.  Any other exception
is caught at line 110, which prints the error line and executes `break`. -/
def recvStep (c : Crypto) (localUser : String) (ps : Peers) : RecvEvent → StepOut
  | .osError _ => ⟨ps, [], .cont⟩
  | .datagram d => processDatagram c localUser ps d

/-- The outcome of one iteration of the main send loop. -/
inductive SendResult where
  | exitChat
  | sendChat (payload : Envelope)
  deriving DecidableEq

/-- One iteration of the main send loop (lines 146-164): read `raw`; when
`raw.lower() == chr_exit` break out of the loop; otherwise prepend the
username, encrypt and sign via `pack` (modelling `crypto_utils.pack_data`,
which returns ciphertext, nonce and signature), and build the CHAT payload
of line 160 with the null placeholder in the fifth slot. -/
def sendStep (pack : String → Bytes × Bytes × Bytes) (localUser raw : String) : SendResult :=
  if pyLower raw = "exit" then .exitChat
  else
    .sendChat ⟨"CHAT", (pack (localUser ++ ": " ++ raw)).1,
      (pack (localUser ++ ": " ++ raw)).2.1, (pack (localUser ++ ": " ++ raw)).2.2, nullByte⟩

/-- A concrete crypto oracle for witnesses: every ciphertext decrypts to
`msg`, every key field decrypts to `k`, and verification returns `v`. -/
def constCrypto (msg : String) (k : Key) (v : Bool) : Crypto :=
  { decryptMsg := fun _ _ => some msg
    decryptKey := fun _ _ => some k
    verify := fun _ _ _ => v
    utf8Decode := fun _ => some msg }

/-! ### Codec lemmas -/

theorem decField_encField (l r : Bytes) : decField (encField l ++ r) = some (l, r) := by
  simp [decField, encField, List.take_left, List.drop_left]

theorem decField_encField_nil (l : Bytes) : decField (encField l) = some (l, []) := by
  have h := decField_encField l []
  simpa using h

theorem map_ofNat_toNat (l : List Char) : l.map (Char.ofNat ∘ Char.toNat) = l := by
  induction l with
  | nil => rfl
  | cons a t ih => simp [List.map_cons, Char.ofNat_toNat, ih]

theorem bytesStr_strBytes (s : String) : bytesStr (strBytes s) = s := by
  cases s with
  | mk l => simp [bytesStr, strBytes, map_ofNat_toNat]

theorem decode_encode_aux (e : Envelope) : decode (encode e) = some e := by
  obtain ⟨t, c, n, s, sn⟩ := e
  simp [encode, decode, List.append_assoc, decField_encField, decField_encField_nil,
    bytesStr_strBytes]

/-! ### Directory lemmas -/

theorem lookup_append_none (u : String) (ps qs : Peers) (h : lookup u ps = none) :
    lookup u (ps ++ qs) = lookup u qs := by
  induction ps with
  | nil => rfl
  | cons p t ih =>
    obtain ⟨v, k⟩ := p
    by_cases hv : v = u
    · simp [lookup, hv] at h
    · simp [lookup, hv] at h ⊢
      exact ih h

theorem lookup_erase_self (u : String) (ps : Peers) : lookup u (erase u ps) = none := by
  induction ps with
  | nil => rfl
  | cons p t ih =>
    obtain ⟨v, k⟩ := p
    by_cases hv : v = u
    · simpa [erase, hv] using ih
    · simpa [erase, lookup, hv] using ih

/-! ### Claim theorems -/

/-- C6: the Envelope Codec's encode and decode are exact inverses: for every
Envelope value (the 5-tuple of message type and four byte fields), decoding
its encoding returns it unchanged. -/
theorem decode_encode (e : Envelope) : decode (encode e) = some e :=
  decode_encode_aux e

/-- C1 as stated is false: a datagram that fails structural decoding is not
dropped-and-continued; the empty payload fails decoding yet processing it
sets the loop control to break, terminating the receive loop. -/
theorem malformed_breaks_loop_cex :
    ¬ (∀ (c : Crypto) (localUser : String) (ps : Peers) (d : Bytes),
        decode d = none → (recvStep c localUser ps (.datagram d)).ctl = LoopCtl.cont) := by
  intro h
  have h2 := h (constCrypto "x" [] true) "alice" [] [] (by decide)
  exact absurd h2 (by decide)

/-- C1 amended: a datagram that fails structural decoding is caught by the
generic handler at line 110, which prints the error line and executes break:
the directory is unchanged, but the receive loop terminates rather than
continuing to the next message. -/
theorem malformed_logs_and_breaks (c : Crypto) (localUser : String) (ps : Peers) (d : Bytes)
    (h : decode d = none) :
    recvStep c localUser ps (.datagram d) = ⟨ps, [recvErrLine], .brk⟩ := by
  simp [recvStep, processDatagram, h]

/-- Witness for the amended C1 at the empty payload. -/
theorem malformed_logs_and_breaks_witness :
    recvStep (constCrypto "x" [] true) "alice" [] (.datagram []) =
      ⟨[], [recvErrLine], LoopCtl.brk⟩ :=
  malformed_logs_and_breaks (constCrypto "x" [] true) "alice" [] [] (by decide)

/-- C7 as stated is false: a transport receive failure with the
bad-file-descriptor errno does not terminate the receive loop; the handler
swallows it and the loop continues to iterate. -/
theorem transport_closed_cex :
    ¬ (∀ (c : Crypto) (localUser : String) (ps : Peers),
        (recvStep c localUser ps (.osError true)).ctl = LoopCtl.brk) := by
  intro h
  exact absurd (h (constCrypto "x" [] true) "alice" []) (by decide)

/-- C7 amended: an OSError raised by the transport receive — whether or not
its errno is EBADF — is swallowed by the handler at line 107: nothing is
printed, the directory is unchanged, and the loop continues to the next
iteration; the receive loop never terminates on a transport error. -/
theorem osError_swallowed (c : Crypto) (localUser : String) (ps : Peers) (ebadf : Bool) :
    recvStep c localUser ps (.osError ebadf) = ⟨ps, [], LoopCtl.cont⟩ := rfl

/-- C2: the JOIN branch has no guard against the local username, so
processing the loopback of the local peer's own periodic JOIN (local
username set to the string alice, empty directory, a JOIN whose fields
decrypt to that username and its own key) inserts an entry for the local
username into known_peers, violating the stated invariant. -/
theorem self_join_adds_local_user :
    lookup "alice" (recvStep (constCrypto "alice" [1] true) "alice" []
      (.datagram (encode ⟨"JOIN", [], [], [], []⟩))).peers = some [1] := by decide

/-- C4: for a username distinct from the local one, a successfully decrypted
JOIN carrying that username and a key inserts the key when the username is
unknown, and leaves the directory entirely unchanged when the username is
already present, even when the newly carried key differs from the stored
one (established trust is never overwritten). -/
theorem join_step (c : Crypto) (localUser u : String) (k : Key) (ps : Peers) (env : Envelope)
    (hu : u ≠ localUser)
    (ht : env.messageType = "JOIN")
    (hm : c.decryptMsg env.ciphertext env.nonce = some u)
    (hk : c.decryptKey env.signature env.sigNonce = some k) :
    (lookup u ps = none →
      lookup u (recvStep c localUser ps (.datagram (encode env))).peers = some k)
    ∧ (∀ k0, lookup u ps = some k0 → k ≠ k0 →
      (recvStep c localUser ps (.datagram (encode env))).peers = ps) := by
  have hde := decode_encode_aux env
  constructor
  · intro habs
    simp [recvStep, processDatagram, hde, handleEnvelope, ht, handleJoin, hm, hk, habs,
      lookup_append_none u ps [(u, k)] habs, lookup]
  · intro k0 hpres hne
    simp [recvStep, processDatagram, hde, handleEnvelope, ht, handleJoin, hm, hk, hpres]

/-- Witness for C4: a first JOIN for bob stores his key, and a second JOIN
for bob carrying a different key leaves the stored entry unchanged. -/
theorem join_step_witness :
    lookup "bob" (recvStep (constCrypto "bob" [7] true) "alice" []
      (.datagram (encode ⟨"JOIN", [], [], [], []⟩))).peers = some [7]
    ∧ (recvStep (constCrypto "bob" [7] true) "alice" [("bob", [9])]
      (.datagram (encode ⟨"JOIN", [], [], [], []⟩))).peers = [("bob", [9])] := by
  constructor
  · exact (join_step (constCrypto "bob" [7] true) "alice" "bob" [7] []
      ⟨"JOIN", [], [], [], []⟩ (by decide) rfl rfl rfl).1 rfl
  · exact (join_step (constCrypto "bob" [7] true) "alice" "bob" [7] [("bob", [9])]
      ⟨"JOIN", [], [], [], []⟩ (by decide) rfl rfl rfl).2 [9] rfl (by decide)

/-- C5: after processing a LEAVE naming a username, that username is absent
from the directory, and a LEAVE naming an unknown username leaves the
directory unchanged. -/
theorem leave_step (c : Crypto) (localUser u : String) (ps : Peers) (env : Envelope)
    (ht : env.messageType = "LEAVE")
    (hdec : c.utf8Decode env.ciphertext = some u) :
    lookup u (recvStep c localUser ps (.datagram (encode env))).peers = none
    ∧ (lookup u ps = none → (recvStep c localUser ps (.datagram (encode env))).peers = ps) := by
  have hde := decode_encode_aux env
  constructor
  · cases hcase : lookup u ps with
    | none => simp [recvStep, processDatagram, hde, handleEnvelope, ht, handleLeave, hdec, hcase]
    | some k0 =>
        simp [recvStep, processDatagram, hde, handleEnvelope, ht, handleLeave, hdec, hcase,
          lookup_erase_self]
  · intro habs
    simp [recvStep, processDatagram, hde, handleEnvelope, ht, handleLeave, hdec, habs]

/-- Witness for C5: a LEAVE naming bob removes his entry, and a LEAVE on an
empty directory leaves it empty. -/
theorem leave_step_witness :
    lookup "bob" (recvStep (constCrypto "bob" [] true) "alice" [("bob", [7])]
      (.datagram (encode ⟨"LEAVE", [], [], [], []⟩))).peers = none
    ∧ (recvStep (constCrypto "bob" [] true) "alice" []
      (.datagram (encode ⟨"LEAVE", [], [], [], []⟩))).peers = [] := by
  constructor
  · exact (leave_step (constCrypto "bob" [] true) "alice" "bob" [("bob", [7])]
      ⟨"LEAVE", [], [], [], []⟩ rfl rfl).1
  · exact (leave_step (constCrypto "bob" [] true) "alice" "bob" []
      ⟨"LEAVE", [], [], [], []⟩ rfl rfl).2 rfl

/-- C9: processing a LEAVE always prints exactly the departure notice for
the decoded username — whether or not that username is in the directory —
because the print at line 94 precedes the membership check at line 97. -/
theorem leave_always_notifies (c : Crypto) (localUser u : String) (ps : Peers) (env : Envelope)
    (ht : env.messageType = "LEAVE")
    (hdec : c.utf8Decode env.ciphertext = some u) :
    (recvStep c localUser ps (.datagram (encode env))).output = [u ++ " has left the chat."] := by
  have hde := decode_encode_aux env
  cases hcase : lookup u ps with
  | none => simp [recvStep, processDatagram, hde, handleEnvelope, ht, handleLeave, hdec, hcase]
  | some k0 =>
      simp [recvStep, processDatagram, hde, handleEnvelope, ht, handleLeave, hdec, hcase]

/-- Witness for C9: the departure notice is printed for a username that is
absent from the directory. -/
theorem leave_always_notifies_witness :
    (recvStep (constCrypto "carol" [] true) "alice" []
      (.datagram (encode ⟨"LEAVE", [], [], [], []⟩))).output =
      ["carol" ++ " has left the chat."] :=
  leave_always_notifies (constCrypto "carol" [] true) "alice" "carol" []
    ⟨"LEAVE", [], [], [], []⟩ rfl rfl

/-- C3 as stated is false: display is not equivalent to the conjunction with
the condition that the extracted sender differs from the local username.
With local username alice, a CHAT whose plaintext is exactly the string
alice (no colon-space separator) escapes the startswith self-check, its
extracted sender equals the local username, and with that sender present in
the directory and a verifying signature the plaintext is displayed. -/
theorem chat_display_iff_cex :
    ¬ (∀ (c : Crypto) (localUser : String) (ps : Peers) (env : Envelope) (raw : String),
        env.messageType = "CHAT" → c.decryptMsg env.ciphertext env.nonce = some raw →
        ((recvStep c localUser ps (.datagram (encode env))).output ≠ [] ↔
          (senderOf raw ≠ localUser
            ∧ ∃ k, lookup (senderOf raw) ps = some k ∧ c.verify k env.signature raw = true))) := by
  intro h
  have h2 := h (constCrypto "alice" [] true) "alice" [("alice", [1])]
    ⟨"CHAT", [], [], [], []⟩ "alice" rfl rfl
  have h3 : (recvStep (constCrypto "alice" [] true) "alice" [("alice", [1])]
      (.datagram (encode ⟨"CHAT", [], [], [], []⟩))).output ≠ [] := by decide
  exact (h2.mp h3).1 (by decide)

/-- C3 amended: a CHAT displays the decrypted plaintext exactly when the
plaintext does not start with the local username followed by colon-space and
the text before the first colon-space names a directory entry whose stored
key verifies the signature; when displayed, the output is exactly the
plaintext; and a CHAT never mutates the directory and always continues the
loop on a successful decryption. -/
theorem chat_step_spec (c : Crypto) (localUser : String) (ps : Peers) (env : Envelope)
    (raw : String)
    (ht : env.messageType = "CHAT")
    (hdec : c.decryptMsg env.ciphertext env.nonce = some raw) :
    (recvStep c localUser ps (.datagram (encode env))).peers = ps
    ∧ (recvStep c localUser ps (.datagram (encode env))).ctl = LoopCtl.cont
    ∧ ((recvStep c localUser ps (.datagram (encode env))).output ≠ [] ↔
        (strStartsWith raw (localUser ++ ": ") = false
          ∧ ∃ k, lookup (senderOf raw) ps = some k ∧ c.verify k env.signature raw = true))
    ∧ ((recvStep c localUser ps (.datagram (encode env))).output ≠ [] →
        (recvStep c localUser ps (.datagram (encode env))).output = [raw]) := by
  have hde := decode_encode_aux env
  have hstep : recvStep c localUser ps (.datagram (encode env)) = handleChat c localUser ps env := by
    simp [recvStep, processDatagram, hde, handleEnvelope, ht]
  rw [hstep]
  unfold handleChat
  rw [hdec]
  by_cases hs : strStartsWith raw (localUser ++ ": ")
  · simp [hs]
  · cases hl : lookup (senderOf raw) ps with
    | none => simp [hs, hl]
    | some k =>
      by_cases hv : c.verify k env.signature raw
      · simp [hs, hl, hv]
      · simp [hs, hl, hv]

/-- Witness for the amended C3: a CHAT from a known peer with a verifying
signature displays the plaintext. -/
theorem chat_step_spec_witness :
    (recvStep (constCrypto "bob: hi" [] true) "alice" [("bob", [2])]
      (.datagram (encode ⟨"CHAT", [], [], [], []⟩))).output = ["bob: hi"] := by
  have h := chat_step_spec (constCrypto "bob: hi" [] true) "alice" [("bob", [2])]
    ⟨"CHAT", [], [], [], []⟩ "bob: hi" rfl rfl
  exact h.2.2.2 (h.2.2.1.mpr ⟨by decide, [2], by decide, by decide⟩)

/-- C10: one send-loop iteration exits exactly when the lowercased input is
the exit word, and any other input is packed (encrypted and signed) with the
username prepended and sent as a CHAT envelope. -/
theorem exit_cmd_case_insensitive (pack : String → Bytes × Bytes × Bytes)
    (localUser raw : String) :
    (sendStep pack localUser raw = SendResult.exitChat ↔ pyLower raw = "exit")
    ∧ (pyLower raw ≠ "exit" →
        sendStep pack localUser raw = SendResult.sendChat
          ⟨"CHAT", (pack (localUser ++ ": " ++ raw)).1, (pack (localUser ++ ": " ++ raw)).2.1,
            (pack (localUser ++ ": " ++ raw)).2.2, nullByte⟩) := by
  by_cases h : pyLower raw = "exit"
  · simp [sendStep, h]
  · simp [sendStep, h]

/-- Witness for C10 at the uppercase exit word. -/
theorem exit_cmd_case_insensitive_witness :
    sendStep (fun _ => ([1], [2], [3])) "alice" "EXIT" = SendResult.exitChat :=
  (exit_cmd_case_insensitive (fun _ => ([1], [2], [3])) "alice" "EXIT").1.mpr (by decide)

end E2E
